import Mathlib

/-!
Shallow embedding of `rayoptics/raytr/trace.py` (ray aiming, safe tracing,
batch sampling engines, Coddington astigmatism) and verification of the
specification claims about it.

Conventions used throughout:
* Python floats are modelled by `ℝ`; wavelengths (compared for equality in
  the chief-ray cache) are modelled by `ℚ` so that the comparison is the
  exact equality the Python `!=` performs on the stored value.
* The external trace primitive `rt.trace` and the other collaborators from
  outside this module (scipy solvers, `waveabr`, the optical model) are
  parameters of the embedding (`Externals`), as the source consumes them.
* A raised exception is modelled by an `Except`/tagged result; mutation of a
  `Field` object is modelled by state passing (functions return the field).
-/

namespace RayOptics

/-! ### 3d vectors (numpy arrays of length 3) -/

structure Vec3 where
  x : ℝ
  y : ℝ
  z : ℝ

theorem Vec3.ext_iff {a b : Vec3} : a = b ↔ a.x = b.x ∧ a.y = b.y ∧ a.z = b.z := by
  constructor
  · intro h; cases h; exact ⟨rfl, rfl, rfl⟩
  · intro ⟨h1, h2, h3⟩; cases a; cases b; simp_all

def dot3 (a b : Vec3) : ℝ := a.x * b.x + a.y * b.y + a.z * b.z

def cross3 (a b : Vec3) : Vec3 :=
  ⟨a.y * b.z - a.z * b.y, a.z * b.x - a.x * b.z, a.x * b.y - a.y * b.x⟩

def add3 (a b : Vec3) : Vec3 := ⟨a.x + b.x, a.y + b.y, a.z + b.z⟩

def sub3 (a b : Vec3) : Vec3 := ⟨a.x - b.x, a.y - b.y, a.z - b.z⟩

def neg3 (a : Vec3) : Vec3 := ⟨-a.x, -a.y, -a.z⟩

def smul3 (c : ℝ) (a : Vec3) : Vec3 := ⟨c * a.x, c * a.y, c * a.z⟩

/-- `numpy.linalg.norm` of a 3-vector. -/
noncomputable def norm3 (v : Vec3) : ℝ := Real.sqrt (dot3 v v)

/-- `dir0 = dir0/length` with `length = norm(dir0)`. -/
noncomputable def normalize3 (v : Vec3) : Vec3 := smul3 (1 / norm3 v) v

/-! ### Ray data (`RaySeg`, `RayPkg`) and the trace error taxonomy -/

/-- One element of the traced ray: `[pt, after_dir, after_dst, normal]`. -/
structure RaySeg where
  p : Vec3
  d : Vec3
  dst : ℝ
  nrml : Vec3

/-- `RayPkg(ray, op, wvl)`: the traced segments, the optical path delta and
the trace wavelength. -/
structure RayPkg where
  ray : List RaySeg
  op_delta : ℝ
  wvl : ℚ

def defaultSeg : RaySeg := ⟨⟨0, 0, 0⟩, ⟨0, 0, 0⟩, 0, ⟨0, 0, 0⟩⟩

/-- `ray = [RaySeg(*rs) for rs in ray]; RayPkg(ray, op_delta, wvl)`:
rebuild the package with each segment re-tagged as a named tuple.  In the
embedding a raw 4-list and a named tuple carry the same data, so the
re-tagging rebuilds each segment field by field. -/
def RayPkg.toNamedTuples (pkg : RayPkg) : RayPkg :=
  { ray := pkg.ray.map (fun rs => ⟨rs.p, rs.d, rs.dst, rs.nrml⟩),
    op_delta := pkg.op_delta, wvl := pkg.wvl }

theorem RayPkg.toNamedTuples_eq (pkg : RayPkg) : pkg.toNamedTuples = pkg := by
  cases pkg with
  | mk ray op wvl =>
    simp only [RayPkg.toNamedTuples]
    congr 1
    induction ray with
    | nil => rfl
    | cons hd tl ih => simp_all

/-- `MissedSurface`, `TotalInternalReflection` and generic `TraceError`; the
surface index is carried by the two specific kinds (`err.surf`). -/
inductive TraceErrKind where
  | missedSurface (surf : ℕ)
  | tir (surf : ℕ)
  | generic
deriving DecidableEq

/-- A raised trace error: the kind together with `err.ray_pkg`, the
`(ray, op_delta, wvl)` package accumulated up to the failure (this file
unpacks it as a triple in `trace_safe` and `trace_boundary_rays_at_field`). -/
structure TraceErr where
  kind : TraceErrKind
  ray_pkg : RayPkg

/-- The error as it appears in a `trace_safe` result: the `summary` filter
clears the payload (`rayerr.ray_pkg = None`). -/
structure TraceErrResult where
  kind : TraceErrKind
  ray_pkg : Option RayPkg

/-! ### `trace_safe` -/

/-- `output_filter`: `None`, `'last'`, or a callable. -/
inductive OutputFilter (γ : Type) where
  | keepAll
  | last
  | custom (f : RayPkg → γ)

/-- `rayerr_filter`: `None`, `'full'`, `'summary'`; any other value falls
into the final `else` branch (append nothing). -/
inductive RayerrFilter where
  | drop
  | full
  | summary
  | other

/-- The value bound to `ray_result` by `trace_safe` (when not `None`). -/
inductive RayResult (γ : Type) where
  | pkg (p : RayPkg)
  | lastSeg (s : RaySeg) (op_delta : ℝ) (wvl : ℚ)
  | err (e : TraceErrResult)
  | custom (v : γ)

/-- `trace_safe`, parametrised by the outcome of the underlying
`trace_base` call (a package, or a raised `TraceError`). -/
def trace_safe {γ : Type} (outcome : Except TraceErr RayPkg)
    (output_filter : OutputFilter γ) (rayerr_filter : RayerrFilter)
    (use_named_tuples : Bool) : Option (RayResult γ) :=
  match outcome with
  | .error rayerr =>
    match rayerr_filter with
    | .drop => none
    | .full => some (.err ⟨rayerr.kind, some rayerr.ray_pkg.toNamedTuples⟩)
    | .summary => some (.err ⟨rayerr.kind, none⟩)
    | .other => none
  | .ok ray_pkg0 =>
    let ray_pkg := if use_named_tuples then ray_pkg0.toNamedTuples else ray_pkg0
    match output_filter with
    | .keepAll => some (.pkg ray_pkg)
    | .last => some (.lastSeg (ray_pkg.ray.getLastD defaultSeg)
        ray_pkg.op_delta ray_pkg.wvl)
    | .custom f => some (.custom (f ray_pkg))

/-! ### The scalar residual of 1d ray aiming (`iterate_ray.y_stop_coordinate`)

In the exception handlers the source binds `ray = ray_miss.ray_pkg`, i.e.
the whole `(ray, op_delta, wvl)` triple, where the success path binds the
bare segment list (`ray, _, _ = rt.trace(...)`).  The subsequent dynamic
lookup `ray[ifcx][mc.p][1]` (with `mc.p = 0`) therefore behaves differently
on the two paths; we model the Python indexing chain explicitly. -/

/-- What the Python name `ray` can hold at the point of the lookup. -/
inductive RayVal where
  | segs (l : List RaySeg)
  | pkg (p : RayPkg)

/-- Result of evaluating `ray[ifcx][mc.p][1]` and the subtraction that
follows: a float, a numpy vector, or a raised `IndexError`/`TypeError`
(which is not a `TraceError`, so it escapes the aiming machinery). -/
inductive Indexed where
  | number (r : ℝ)
  | vector (v : Vec3)
  | pyError

/-- Evaluate `ray[ifcx][mc.p][1]` (`mc.p = 0`).
On the segment list this is the y coordinate of the intersection point at
interface `ifcx`.  On the `(ray, op_delta, wvl)` triple, index 0 reaches the
segment list (so `[0][1]` yields the first segment's direction vector),
indices 1 and 2 reach floats (indexing them is a `TypeError`), and larger
indices are an `IndexError`. -/
def pyCoordY : RayVal → ℕ → Indexed
  | .segs l, i =>
    match l.get? i with
    | some s => .number s.p.y
    | none => .pyError
  | .pkg p, i =>
    match i with
    | 0 =>
      match p.ray.get? 0 with
      | some s => .vector s.d
      | none => .pyError
    | 1 => .pyError
    | 2 => .pyError
    | _ + 3 => .pyError

/-- `y_ray - y_target`: ordinary subtraction on a float, numpy broadcast on
a vector, and propagation of a raised indexing error. -/
def indexedSub (x : Indexed) (t : ℝ) : Indexed :=
  match x with
  | .number r => .number (r - t)
  | .vector v => .vector ⟨v.x - t, v.y - t, v.z - t⟩
  | .pyError => .pyError

/-- Outcome of one evaluation of `y_stop_coordinate`: either an exception
propagates out of it (`raise ray_miss` / `raise ray_tir`, or an uncaught
error), or a residual value is returned to the solver. -/
inductive StopResult where
  | reraise (e : TraceErr)
  | residual (x : Indexed)

/-- `iterate_ray.y_stop_coordinate`, parametrised by the outcome of the
`rt.trace` call it performs. -/
def y_stop_coordinate (outcome : Except TraceErr RayPkg) (ifcx : ℕ)
    (y_target : ℝ) : StopResult :=
  match outcome with
  | .ok pkg => .residual (indexedSub (pyCoordY (.segs pkg.ray) ifcx) y_target)
  | .error e =>
    match e.kind with
    | .missedSurface surf =>
      if surf ≤ ifcx then .reraise e
      else .residual (indexedSub (pyCoordY (.pkg e.ray_pkg) ifcx) y_target)
    | .tir surf =>
      if surf < ifcx then .reraise e
      else .residual (indexedSub (pyCoordY (.pkg e.ray_pkg) ifcx) y_target)
    | .generic => .reraise e

/-! ### The optical model, fields and the external collaborators

Everything the traced module consumes from outside (`rt.trace`, the scipy
solvers, `waveabr`, the optical-spec objects) is bundled as parameters. -/

/-- Chief-ray exit-pupil segment `(pt, dir, dist)`. -/
structure ExpSeg where
  pt : Vec3
  dir : Vec3
  dist : ℝ

/-- `chief_ray_pkg = (chief_ray, cr_exp_seg)`; the cached wavelength is
`chief_ray_pkg[0][2]`, i.e. the `wvl` entry of the ray package. -/
def ChiefRayPkg : Type := RayPkg × ExpSeg

/-- Reference-sphere package produced by `calculate_reference_sphere`. -/
structure RefSphere where
  image_pt : Vec3
  cr_exp_pt : Vec3
  cr_exp_dist : ℝ

/-- A `Field` object: the field point, the aim-point override, and the two
cached derived values this module reads or writes. -/
structure Field where
  x : ℝ
  y : ℝ
  aim_pt : Option (ℝ × ℝ)
  chief_ray : Option ChiefRayPkg
  ref_sphere : Option RefSphere

/-- `parax_data.fod`: the first-order data consumed here. -/
structure FirstOrderData where
  enp_radius : ℝ
  enp_dist : ℝ
  obj_dist : ℝ
  exp_dist : ℝ

/-- Outcome of `scipy.optimize.newton(..., disp=False, full_output=True)`:
a converged root, a `RuntimeError` together with the best current estimate
(`results.root`), or a `TraceError` re-raised out of the residual. -/
inductive NewtonOutcome where
  | ok (root : ℝ)
  | runtimeErr (root : ℝ)
  | traceErr

/-- Outcome of `scipy.optimize.fsolve`: a solution vector, or a
`TraceError` raised out of the residual. -/
inductive FsolveOutcome where
  | ok (coords : ℝ × ℝ)
  | traceErr

/-- The external collaborators and model data, as consumed by this module. -/
structure Externals where
  rt_trace : Vec3 → Vec3 → ℚ → Except TraceErr RayPkg
  obj_coords : Field → Vec3
  apply_vignetting : Field → ℝ × ℝ → ℝ × ℝ
  newton : (ℝ → StopResult) → NewtonOutcome
  fsolve : ((ℝ × ℝ) → Except TraceErr (ℝ × ℝ)) → FsolveOutcome
  transfer_to_exit_pupil : Vec3 × Vec3 → ℝ → ExpSeg
  calculate_reference_sphere :
    Field → ℚ → ℝ → ChiefRayPkg → Option (ℝ × ℝ) → RefSphere
  wave_abr_full_calc :
    Field → ℚ → ℝ → RayPkg → ChiefRayPkg → RefSphere → ℝ
  fod : FirstOrderData
  z_dir0 : ℝ
  stop_surface : Option ℕ
  central_wavelength : ℚ

/-! ### `trace_base` -/

/-- The launch point on the entrance-pupil reference plane:
`pt1 = [eprad*vig_pupil[0]+aim_pt[0], eprad*vig_pupil[1]+aim_pt[1],
obj_dist+enp_dist]`, with `aim_pt = [0,0]` unless the field carries an
override. -/
def trace_base_pt1 (X : Externals) (pupil : ℝ × ℝ) (fld : Field)
    (apply_vignetting : Bool) : Vec3 :=
  let vig_pupil := if apply_vignetting then X.apply_vignetting fld pupil else pupil
  let eprad := X.fod.enp_radius
  let aim_pt : ℝ × ℝ := match fld.aim_pt with
    | some a => a
    | none => (0, 0)
  ⟨eprad * vig_pupil.1 + aim_pt.1, eprad * vig_pupil.2 + aim_pt.2,
    X.fod.obj_dist + X.fod.enp_dist⟩

/-- The starting direction handed to `rt.trace` by `trace_base`: the
normalised object-to-pupil direction, negated when its z component runs
against the first gap's propagation sign (`dir0[2] * sm.z_dir[0] < 0`). -/
noncomputable def trace_base_dir0 (X : Externals) (pupil : ℝ × ℝ) (fld : Field)
    (apply_vignetting : Bool) : Vec3 :=
  let pt1 := trace_base_pt1 X pupil fld apply_vignetting
  let pt0 := X.obj_coords fld
  let dir0 := normalize3 (sub3 pt1 pt0)
  if dir0.z * X.z_dir0 < 0 then neg3 dir0 else dir0

/-- `trace_base`: trace the ray specified by relative aperture and field. -/
noncomputable def trace_base (X : Externals) (pupil : ℝ × ℝ) (fld : Field)
    (wvl : ℚ) (apply_vignetting : Bool := true) : Except TraceErr RayPkg :=
  X.rt_trace (X.obj_coords fld) (trace_base_dir0 X pupil fld apply_vignetting) wvl

/-! ### `iterate_ray` -/

/-- The 2d residual `iterate_ray.surface_coordinate`, parametrised by the
external trace; a trace error escapes it uncaught. -/
noncomputable def surface_coordinate (X : Externals) (ifcx : ℕ) (pt0 : Vec3)
    (dist : ℝ) (wvl : ℚ) (target : ℝ × ℝ) (coord : ℝ × ℝ) :
    Except TraceErr (ℝ × ℝ) :=
  let pt1 : Vec3 := ⟨coord.1, coord.2, dist⟩
  let dir0 := normalize3 (sub3 pt1 pt0)
  match X.rt_trace pt0 dir0 wvl with
  | .error e => .error e
  | .ok pkg =>
    let xy := ((pkg.ray.getD ifcx defaultSeg).p.x, (pkg.ray.getD ifcx defaultSeg).p.y)
    .ok (xy.1 - target.1, xy.2 - target.2)

/-- `iterate_ray`: solve for the aim point on the entrance-pupil plane that
sends the traced ray to `xy_target` on interface `ifcx`.  `None` (floating
stop) returns the target unchanged; the 1d branch is taken when the field
point and the target are both on the y axis. -/
noncomputable def iterate_ray (X : Externals) (ifcx : Option ℕ)
    (xy_target : ℝ × ℝ) (fld : Field) (wvl : ℚ) : ℝ × ℝ :=
  let dist := X.fod.obj_dist + X.fod.enp_dist
  let pt0 := X.obj_coords fld
  match ifcx with
  | some i =>
    if pt0.x = 0 ∧ xy_target.1 = 0 then
      let y_target := xy_target.2
      let residual := fun y1 =>
        y_stop_coordinate
          (X.rt_trace pt0 (normalize3 (sub3 ⟨0, y1, dist⟩ pt0)) wvl) i y_target
      let start_y :=
        match X.newton residual with
        | .ok root => root
        | .runtimeErr root => root
        | .traceErr => 0
      (0, start_y)
    else
      match X.fsolve (surface_coordinate X i pt0 dist wvl xy_target) with
      | .ok coords => coords
      | .traceErr => (0, 0)
  | none => (0 + xy_target.1, 0 + xy_target.2)

/-! ### Chief ray: aiming, tracing, the cache, pupil setup -/

/-- `aim_chief_ray`: aim at the centre of the stop surface, defaulting the
wavelength to the system's central wavelength. -/
noncomputable def aim_chief_ray (X : Externals) (fld : Field)
    (wvl : Option ℚ := none) : ℝ × ℝ :=
  let wvl := wvl.getD X.central_wavelength
  iterate_ray X X.stop_surface (0, 0) fld wvl

/-- `trace_chief_ray`: trace the pupil-centre ray and transfer its second
to last segment to the exit pupil.  A trace error escapes uncaught. -/
noncomputable def trace_chief_ray (X : Externals) (fld : Field) (wvl : ℚ)
    (_foc : ℝ) : Except TraceErr ChiefRayPkg :=
  match trace_base X (0, 0) fld wvl with
  | .error e => .error e
  | .ok pkg =>
    let cr : RayPkg := ⟨pkg.ray, pkg.op_delta, pkg.wvl⟩
    let seg := cr.ray.getD (cr.ray.length - 2) defaultSeg
    let cr_exp_seg := X.transfer_to_exit_pupil (seg.p, seg.d) X.fod.exp_dist
    .ok (cr, cr_exp_seg)

/-- `get_chief_ray_pkg`: return the cached chief-ray package, or recompute
it.  The `Field` is threaded through explicitly to record any mutation; the
source performs no assignment to `fld` here (the aim result of
`aim_chief_ray` is discarded and the recomputed package is only returned),
so the input field is handed back unchanged. -/
noncomputable def get_chief_ray_pkg (X : Externals) (fld : Field) (wvl : ℚ)
    (foc : ℝ) : Except TraceErr ChiefRayPkg × Field :=
  match fld.chief_ray with
  | none =>
    let _aim := aim_chief_ray X fld (some wvl)
    (trace_chief_ray X fld wvl foc, fld)
  | some cr =>
    if cr.1.wvl ≠ wvl then (trace_chief_ray X fld wvl foc, fld)
    else (.ok cr, fld)

/-- `setup_pupil_coords`: derive the reference sphere from the chief-ray
package and an optional image-point override. -/
noncomputable def setup_pupil_coords (X : Externals) (fld : Field) (wvl : ℚ)
    (foc : ℝ) (image_pt : Option Vec3 := none) :
    Except TraceErr (RefSphere × ChiefRayPkg) × Field :=
  match get_chief_ray_pkg X fld wvl foc with
  | (.error e, fld1) => (.error e, fld1)
  | (.ok chief_ray_pkg, fld1) =>
    let image_pt_2d := image_pt.map (fun p => (p.x, p.y))
    let ref_sphere :=
      X.calculate_reference_sphere fld1 wvl foc chief_ray_pkg image_pt_2d
    ((.ok (ref_sphere, chief_ray_pkg)), fld1)

/-- `trace_with_opd`: full trace with wavefront aberration; stores the
chief-ray package and the reference sphere on the field before computing
the aberration. -/
noncomputable def trace_with_opd (X : Externals) (pupil : ℝ × ℝ) (fld : Field)
    (wvl : ℚ) (foc : ℝ) (image_pt : Option Vec3 := none) :
    Except TraceErr ((List RaySeg × ℝ × ℚ × ℝ) × Field) :=
  match get_chief_ray_pkg X fld wvl foc with
  | (.error e, _) => .error e
  | (.ok chief_ray_pkg, fld1) =>
    let image_pt_2d := image_pt.map (fun p => (p.x, p.y))
    let ref_sphere :=
      X.calculate_reference_sphere fld1 wvl foc chief_ray_pkg image_pt_2d
    match trace_base X pupil fld1 wvl with
    | .error e => .error e
    | .ok ray_pkg =>
      let fld2 := { fld1 with chief_ray := some chief_ray_pkg,
                              ref_sphere := some ref_sphere }
      let opd := X.wave_abr_full_calc fld2 wvl foc ray_pkg chief_ray_pkg ref_sphere
      .ok ((ray_pkg.ray, ray_pkg.op_delta, ray_pkg.wvl, opd), fld2)

/-! ### Batch sampling engines -/

/-- `trace_boundary_rays_at_field`: one package per canonical pupil sample;
its own `try/except TraceError` substitutes the error's partial package.
The underlying `trace_base` outcome per sample is the parameter. -/
def trace_boundary_rays_at_field (traceO : (ℝ × ℝ) → Except TraceErr RayPkg)
    (pupil_rays : List (ℝ × ℝ)) (use_named_tuples : Bool) : List RayPkg :=
  pupil_rays.map (fun p =>
    let pkg := match traceO p with
      | .ok pkg => pkg
      | .error ray_error => ray_error.ray_pkg
    let ray := if use_named_tuples then pkg.toNamedTuples.ray else pkg.ray
    ⟨ray, pkg.op_delta, pkg.wvl⟩)

/-- One entry of the fan: `[pupil, ray_pkg]` or `[pupil, result]`. -/
inductive FanEntry (β : Type) where
  | raw (pupil : ℝ × ℝ) (pkg : RayPkg)
  | filtered (pupil : ℝ × ℝ) (result : β)

/-- The loop of `trace_fan`: `trace_base` is called with no exception
handler, so the first trace error propagates out of the whole fan. -/
def trace_fan_loop {β : Type} (traceO : (ℝ × ℝ) → Except TraceErr RayPkg)
    (img_filter : Option ((ℝ × ℝ) → RayPkg → β)) (start step : ℝ × ℝ) :
    ℕ → Except TraceErr (List (FanEntry β))
  | 0 => .ok []
  | n + 1 =>
    match traceO start with
    | .error e => .error e
    | .ok pkg =>
      let entry := match img_filter with
        | some f => FanEntry.filtered start (f start pkg)
        | none => FanEntry.raw start pkg
      match trace_fan_loop traceO img_filter
          (start.1 + step.1, start.2 + step.2) step n with
      | .error e => .error e
      | .ok rest => .ok (entry :: rest)

/-- `trace_fan`: `num` equally spaced pupil samples from `start` to `stop`
(`step = (stop - start)/(num - 1)`). -/
noncomputable def trace_fan {β : Type} (traceO : (ℝ × ℝ) → Except TraceErr RayPkg)
    (img_filter : Option ((ℝ × ℝ) → RayPkg → β)) (fan_start fan_stop : ℝ × ℝ)
    (num : ℕ) : Except TraceErr (List (FanEntry β)) :=
  let step : ℝ × ℝ := ((fan_stop.1 - fan_start.1) / ((num : ℝ) - 1),
                       (fan_stop.2 - fan_start.2) / ((num : ℝ) - 1))
  trace_fan_loop traceO img_filter fan_start step num

/-- One appended element of the grid: the placeholder/result triple
`[pupil[0], pupil[1], ray_result-or-None]`, or the raw output of a caller
image filter (which may itself be `None`). -/
inductive GridEntry (ρ β : Type) where
  | triple (px py : ℝ) (r : Option ρ)
  | filtered (b : Option β)

/-- The body of the inner `trace_grid` loop for one cell: what is appended
to `working_grid` for the pupil point `pupil` whose safe-trace result is
`ray_result`. -/
def grid_cell {ρ β : Type} (ray_result : Option ρ)
    (img_filter : Option ((ℝ × ℝ) → Option ρ → Option β))
    (append_if_none : Bool) (pupil : ℝ × ℝ) : List (GridEntry ρ β) :=
  match ray_result with
  | some r =>
    match img_filter with
    | some f => [.filtered (f pupil (some r))]
    | none => [.triple pupil.1 pupil.2 (some r)]
  | none =>
    match img_filter with
    | some f =>
      let result := f pupil none
      if result.isSome || append_if_none then [.filtered result] else []
    | none =>
      if append_if_none then [.triple pupil.1 pupil.2 none] else []

/-- Inner loop over `j`: `start[1] += step[1]` after each cell. -/
def trace_grid_inner {E : Type} (cell : ℝ × ℝ → List E) (x stepy : ℝ) :
    ℕ → ℝ → List E
  | 0, _ => []
  | n + 1, y => cell (x, y) ++ trace_grid_inner cell x stepy n (y + stepy)

/-- Outer loop over `i`: after each row `start[0] += step[0]` and
`start[1]` is reset to `grid_rng[0][1]`. -/
def trace_grid_outer {E : Type} (cell : ℝ × ℝ → List E) (y0 stepx stepy : ℝ)
    (num : ℕ) : ℕ → ℝ → List (List E)
  | 0, _ => []
  | m + 1, x =>
    trace_grid_inner cell x stepy num y0 ::
      trace_grid_outer cell y0 stepx stepy num m (x + stepx)

/-- `form='list'` accumulates every cell into one flat list; `form='grid'`
closes a row after each outer iteration. -/
inductive GridOut (E : Type) where
  | flat (l : List E)
  | nested (rows : List (List E))

inductive GridForm where
  | list
  | grid

/-- `trace_grid`: an `num × num` grid of pupil samples traced through
`trace_safe` (so `check_apertures=True` and the configured filters decide
per-cell presence), each cell appended per `grid_cell`. -/
noncomputable def trace_grid {γ β : Type}
    (traceO : (ℝ × ℝ) → Except TraceErr RayPkg)
    (output_filter : OutputFilter γ) (rayerr_filter : RayerrFilter)
    (use_named_tuples : Bool)
    (img_filter : Option ((ℝ × ℝ) → Option (RayResult γ) → Option β))
    (grid_start grid_stop : ℝ × ℝ) (num : ℕ) (form : GridForm)
    (append_if_none : Bool) : GridOut (GridEntry (RayResult γ) β) :=
  let step : ℝ × ℝ := ((grid_stop.1 - grid_start.1) / ((num : ℝ) - 1),
                       (grid_stop.2 - grid_start.2) / ((num : ℝ) - 1))
  let cell := fun p =>
    grid_cell (trace_safe (traceO p) output_filter rayerr_filter use_named_tuples)
      img_filter append_if_none p
  let rows := trace_grid_outer cell grid_start.2 step.1 step.2 num num grid_start.1
  match form with
  | .list => .flat rows.flatten
  | .grid => .nested rows

/-! ### Coddington oblique-astigmatism recurrence -/

/-- One element of the `zip_longest` path: the ray segment, the interface's
paraxial optical power, and the refractive index after the interface
(`None` past the end of the index list, in which case the running index is
kept). -/
structure CodEntry where
  seg : RaySeg
  power : ℝ
  after_rind : Option ℝ

/-- The loop-carried state of `trace_coddington_fan`: the running index and
direction, the sagittal/tangential vergences `s_before`/`t_before`, the
last computed `s_prime`/`t_prime` and the last segment's point/direction
(read after the loop).  In Python `s_before`, `t_before`, `s_prime`,
`t_prime` start as unbound/`None`; the fields are initialised to junk `0`
and only read after the steps that assign them. -/
structure CodState where
  before_rind : ℝ
  before_dir : Option Vec3
  s_before : ℝ
  t_before : ℝ
  s_prime : ℝ
  t_prime : ℝ
  pt : Vec3
  after_dir : Vec3

/-- `cosI' = dot(after_dir, normal)/norm(normal)`. -/
noncomputable def cod_cosI_prime (after_dir normal : Vec3) : ℝ :=
  dot3 after_dir normal / norm3 normal

/-- `sinI' = sqrt(1 - cosI'**2)`. -/
noncomputable def cod_sinI_prime (after_dir normal : Vec3) : ℝ :=
  Real.sqrt (1 - (cod_cosI_prime after_dir normal) ^ 2)

/-- `sinI = after_rind*sinI'/before_rind` (Snell). -/
noncomputable def cod_sinI (before_rind after_rind : ℝ) (after_dir normal : Vec3) : ℝ :=
  after_rind * cod_sinI_prime after_dir normal / before_rind

/-- `cosI = sqrt(1 - sinI**2)`. -/
noncomputable def cod_cosI (before_rind after_rind : ℝ) (after_dir normal : Vec3) : ℝ :=
  Real.sqrt (1 - (cod_sinI before_rind after_rind after_dir normal) ^ 2)

/-- The oblique power: `ifc.optical_power`, scaled by
`(n'cosI' - n cosI)/(n' - n)` when nonzero. -/
noncomputable def cod_obl_power (power before_rind after_rind : ℝ)
    (after_dir normal : Vec3) : ℝ :=
  if power = 0 then 0
  else power * ((after_rind * cod_cosI_prime after_dir normal -
      before_rind * cod_cosI before_rind after_rind after_dir normal) /
      (after_rind - before_rind))

/-- One iteration of the `trace_coddington_fan` loop. -/
noncomputable def codStep (st : CodState) (e : CodEntry) : CodState :=
  let after_rind := e.after_rind.getD st.before_rind
  let pt := e.seg.p
  let after_dir := e.seg.d
  let after_dst := e.seg.dst
  let normal := e.seg.nrml
  match st.before_dir with
  | some _ =>
    let cosI_prime := cod_cosI_prime after_dir normal
    let cosI := cod_cosI st.before_rind after_rind after_dir normal
    let obl_power := cod_obl_power e.power st.before_rind after_rind after_dir normal
    let n_by_s_prime := st.before_rind / st.s_before + obl_power
    let s_prime := after_rind / n_by_s_prime
    let n_cosIp2_by_t_prime := st.before_rind * cosI ^ 2 / st.t_before + obl_power
    let t_prime := after_rind * cosI_prime ^ 2 / n_cosIp2_by_t_prime
    { before_rind := after_rind, before_dir := some after_dir,
      s_before := s_prime - after_dst, t_before := t_prime - after_dst,
      s_prime := s_prime, t_prime := t_prime, pt := pt, after_dir := after_dir }
  | none =>
    { before_rind := after_rind, before_dir := some after_dir,
      s_before := -after_dst, t_before := -after_dst,
      s_prime := st.s_prime, t_prime := st.t_prime, pt := pt, after_dir := after_dir }

/-- The initial loop state: `before_rind = seq_model.rndx[0][wl]`,
`before_dir = None`, the rest unbound. -/
def codInit (rndx0 : ℝ) : CodState :=
  { before_rind := rndx0, before_dir := none, s_before := 0, t_before := 0,
    s_prime := 0, t_prime := 0, pt := ⟨0, 0, 0⟩, after_dir := ⟨0, 0, 0⟩ }

/-- `trace_coddington_fan`: walk the path, then project the final
`s_prime`/`t_prime` onto the axis (`s_dfoc = s_prime*after_dir[2] + pt[2]`)
and subtract the focus shift when given. -/
noncomputable def trace_coddington_fan (rndx0 : ℝ) (path : List CodEntry)
    (foc : Option ℝ) : ℝ × ℝ :=
  let st := path.foldl codStep (codInit rndx0)
  let s_dfoc := st.s_prime * st.after_dir.z + st.pt.z
  let t_dfoc := st.t_prime * st.after_dir.z + st.pt.z
  match foc with
  | some focus_shift => (s_dfoc - focus_shift, t_dfoc - focus_shift)
  | none => (s_dfoc, t_dfoc)

/-! ### `intersect_2_lines` -/

/-- `s = ((P2 - P1) x V1).(V1 x V2)/|(V1 x V2)|**2`, computed with no
degeneracy check. -/
noncomputable def intersect_2_lines (P1 V1 P2 V2 : Vec3) : ℝ :=
  let Vx := cross3 V1 V2
  dot3 (cross3 (sub3 P2 P1) V1) Vx / dot3 Vx Vx

/-! ### Concrete fixtures used by witnesses and counterexamples -/

def pkgW : RayPkg := ⟨[defaultSeg], 0, 550⟩

def errW : TraceErr := ⟨.generic, pkgW⟩

def expW : ExpSeg := ⟨⟨0, 0, 0⟩, ⟨0, 0, 0⟩, 0⟩

def crW : ChiefRayPkg := (pkgW, expW)

def rsW : RefSphere := ⟨⟨0, 0, 0⟩, ⟨0, 0, 0⟩, 0⟩

/-- A concrete external world: the trace primitive always succeeds with
`pkgW` and every collaborator is a constant function. -/
def X0 : Externals :=
  { rt_trace := fun _ _ _ => .ok pkgW
    obj_coords := fun _ => ⟨0, 0, 0⟩
    apply_vignetting := fun _ p => p
    newton := fun _ => .ok 0
    fsolve := fun _ => .ok (0, 0)
    transfer_to_exit_pupil := fun _ _ => expW
    calculate_reference_sphere := fun _ _ _ _ _ => rsW
    wave_abr_full_calc := fun _ _ _ _ _ _ => 0
    fod := ⟨1, 1, 0, 0⟩
    z_dir0 := 1
    stop_surface := some 1
    central_wavelength := 550 }

/-- A field with empty caches. -/
def fldW : Field := ⟨0, 0, none, none, none⟩

/-- A field holding a cached chief ray at wavelength 550. -/
def fldC : Field := ⟨0, 0, none, some crW, none⟩

/-- The field as left by a successful `trace_with_opd` starting from `fldW`. -/
def fld2W : Field := { fldW with chief_ray := some crW, ref_sphere := some rsW }

/-! ### C2: the `trace_safe` filter table -/

/-- C2: `trace_safe` never lets a trace error escape, and its result is
exactly the filter table: on failure, `rayerr_filter = None` yields no
result, `'summary'` yields the error with its ray payload discarded,
`'full'` yields the error with the partial ray retained; on success,
`output_filter = None` yields the full package, `'last'` yields only the
final segment plus optical path and wavelength, and a callable yields the
callable applied to the package — for every combination of the two filters
and both outcomes. -/
theorem trace_safe_filter_table {γ : Type} (e : TraceErr) (pkg : RayPkg)
    (unt : Bool) (f : RayPkg → γ) (hne : pkg.ray ≠ []) :
    (∀ out : OutputFilter γ, trace_safe (.error e) out .drop unt = none) ∧
    (∀ out : OutputFilter γ, trace_safe (.error e) out .summary unt =
      some (.err ⟨e.kind, none⟩)) ∧
    (∀ out : OutputFilter γ, trace_safe (.error e) out .full unt =
      some (.err ⟨e.kind, some e.ray_pkg⟩)) ∧
    (∀ rf : RayerrFilter, trace_safe (γ := γ) (.ok pkg) .keepAll rf unt =
      some (.pkg pkg)) ∧
    (∀ rf : RayerrFilter, trace_safe (γ := γ) (.ok pkg) .last rf unt =
      some (.lastSeg (pkg.ray.getLast hne) pkg.op_delta pkg.wvl)) ∧
    (∀ rf : RayerrFilter, trace_safe (.ok pkg) (.custom f) rf unt =
      some (.custom (f pkg))) := by
  refine ⟨fun _ => rfl, fun _ => rfl, ?_, ?_, ?_, ?_⟩
  · intro _
    simp [trace_safe, RayPkg.toNamedTuples_eq]
  · intro _
    simp [trace_safe, RayPkg.toNamedTuples_eq]
  · intro _
    simp [trace_safe, RayPkg.toNamedTuples_eq,
      List.getLast?_eq_getLast_of_ne_nil hne]
  · intro _
    simp [trace_safe, RayPkg.toNamedTuples_eq]

theorem trace_safe_filter_table_witness :
    (pkgW.ray ≠ []) ∧
    trace_safe (γ := Unit) (.ok pkgW) .keepAll .drop true = some (.pkg pkgW) := by
  have h : pkgW.ray ≠ [] := by simp [pkgW]
  exact ⟨h, (trace_safe_filter_table errW pkgW true (fun _ => ()) h).2.2.2.1 .drop⟩

/-! ### C1 and C3: the re-raise/recover rule of the 1d aiming residual -/

/-- C1 counterexample: the claim predicts a re-raise whenever the failing
surface is at or beyond the target interface.  With a `MissedSurface` at
surface 4 and target interface 2 the code recovers instead (4 > 2, so the
handler falls through) and returns a residual — which, because the error's
`(ray, op, wvl)` triple is indexed in place of its segment list, is a
raised `TypeError`, not the partial ray's y coordinate. -/
theorem y_stop_coordinate_beyond_target_recovers :
    y_stop_coordinate (.error ⟨.missedSurface 4, pkgW⟩) 2 0 =
      .residual .pyError ∧
    y_stop_coordinate (.error ⟨.missedSurface 4, pkgW⟩) 2 0 ≠
      .reraise ⟨.missedSurface 4, pkgW⟩ := by
  constructor
  · rfl
  · intro h
    simp [y_stop_coordinate] at h

/-- C1 (amended): on `MissedSurface` the error is re-raised iff the failing
surface index is at or before the target interface (`surf <= ifcx`); on
`TotalInternalReflection` iff it is strictly before (`surf < ifcx`); in
every other case iteration continues with a residual computed from the
error's ray package — but since the `(ray, op, wvl)` triple itself is
indexed at the target (instead of its segment list), the value used is
never the partial ray's y coordinate at the target interface. -/
theorem y_stop_coordinate_reraise_rule (pkg : RayPkg) (surf ifcx : ℕ) (t : ℝ) :
    (y_stop_coordinate (.error ⟨.missedSurface surf, pkg⟩) ifcx t =
        .reraise ⟨.missedSurface surf, pkg⟩ ↔ surf ≤ ifcx) ∧
    (ifcx < surf →
      y_stop_coordinate (.error ⟨.missedSurface surf, pkg⟩) ifcx t =
        .residual (indexedSub (pyCoordY (.pkg pkg) ifcx) t)) ∧
    (y_stop_coordinate (.error ⟨.tir surf, pkg⟩) ifcx t =
        .reraise ⟨.tir surf, pkg⟩ ↔ surf < ifcx) ∧
    (surf ≥ ifcx →
      y_stop_coordinate (.error ⟨.tir surf, pkg⟩) ifcx t =
        .residual (indexedSub (pyCoordY (.pkg pkg) ifcx) t)) ∧
    (∀ r : ℝ, pyCoordY (.pkg pkg) ifcx ≠ .number r) := by
  refine ⟨?_, ?_, ?_, ?_, ?_⟩
  · by_cases h : surf ≤ ifcx <;> simp [y_stop_coordinate, h]
  · intro h
    simp [y_stop_coordinate, Nat.not_le.mpr h]
  · by_cases h : surf < ifcx <;> simp [y_stop_coordinate, h]
  · intro h
    simp [y_stop_coordinate, Nat.not_lt.mpr h]
  · intro r
    match ifcx with
    | 0 =>
      cases h : pkg.ray[0]? <;> simp [pyCoordY, h]
    | 1 => simp [pyCoordY]
    | 2 => simp [pyCoordY]
    | (n + 3) => simp [pyCoordY]

theorem y_stop_coordinate_reraise_rule_witness :
    (1 < 3) ∧
    y_stop_coordinate (.error ⟨.missedSurface 3, pkgW⟩) 1 0 =
      .residual (indexedSub (pyCoordY (.pkg pkgW) 1) 0) :=
  ⟨by norm_num,
    (y_stop_coordinate_reraise_rule pkgW 3 1 0).2.1 (by norm_num)⟩

/-- C3 counterexample: the claim predicts a re-raise for a trace failing
exactly at the target surface; for `TotalInternalReflection` exactly at the
target the code recovers (the guard is `surf < ifcx`, which is false). -/
theorem y_stop_coordinate_tir_at_target_recovers :
    y_stop_coordinate (.error ⟨.tir 2, pkgW⟩) 2 0 = .residual .pyError ∧
    y_stop_coordinate (.error ⟨.tir 2, pkgW⟩) 2 0 ≠
      .reraise ⟨.tir 2, pkgW⟩ := by
  constructor
  · rfl
  · intro h
    simp [y_stop_coordinate] at h

/-- C3 (amended): a `MissedSurface` exactly at the target re-raises but a
`TotalInternalReflection` exactly at the target recovers; both kinds
re-raise one surface earlier and both recover one surface later — the
recovery residual being computed from the error's packaged triple, not the
partial ray's coordinate. -/
theorem y_stop_coordinate_adjacent_surface_cases (pkg : RayPkg) (ifcx : ℕ)
    (t : ℝ) :
    (y_stop_coordinate (.error ⟨.missedSurface ifcx, pkg⟩) ifcx t =
      .reraise ⟨.missedSurface ifcx, pkg⟩) ∧
    (y_stop_coordinate (.error ⟨.tir ifcx, pkg⟩) ifcx t =
      .residual (indexedSub (pyCoordY (.pkg pkg) ifcx) t)) ∧
    (∀ j, ifcx = j + 1 →
      y_stop_coordinate (.error ⟨.missedSurface j, pkg⟩) ifcx t =
        .reraise ⟨.missedSurface j, pkg⟩ ∧
      y_stop_coordinate (.error ⟨.tir j, pkg⟩) ifcx t =
        .reraise ⟨.tir j, pkg⟩) ∧
    (y_stop_coordinate (.error ⟨.missedSurface (ifcx + 1), pkg⟩) ifcx t =
      .residual (indexedSub (pyCoordY (.pkg pkg) ifcx) t)) ∧
    (y_stop_coordinate (.error ⟨.tir (ifcx + 1), pkg⟩) ifcx t =
      .residual (indexedSub (pyCoordY (.pkg pkg) ifcx) t)) := by
  refine ⟨?_, ?_, ?_, ?_, ?_⟩
  · simp [y_stop_coordinate]
  · simp [y_stop_coordinate]
  · intro j hj
    subst hj
    constructor
    · simp [y_stop_coordinate, Nat.le_succ]
    · simp [y_stop_coordinate, Nat.lt_succ_self]
  · simp [y_stop_coordinate]
  · simp [y_stop_coordinate]

theorem y_stop_coordinate_adjacent_surface_cases_witness :
    ((3 : ℕ) = 2 + 1) ∧
    y_stop_coordinate (.error ⟨.missedSurface 2, pkgW⟩) 3 0 =
      .reraise ⟨.missedSurface 2, pkgW⟩ :=
  ⟨rfl, ((y_stop_coordinate_adjacent_surface_cases pkgW 3 0).2.2.1 2 rfl).1⟩

/-! ### C4: the chief-ray cache -/

/-- `trace_chief_ray` receives the defocus argument but never reads it. -/
theorem trace_chief_ray_ignores_foc (X : Externals) (fld : Field) (wvl : ℚ)
    (foc1 foc2 : ℝ) :
    trace_chief_ray X fld wvl foc1 = trace_chief_ray X fld wvl foc2 := rfl

/-- C4 counterexample: the claim says that on a cache miss the recomputed
chief-ray package is cached on the field.  Starting from a field with an
empty cache, a package is computed and returned but the returned field's
cache slot is still `None` — nothing was stored. -/
theorem get_chief_ray_pkg_does_not_cache_on_field :
    (get_chief_ray_pkg X0 fldW 550 0).1 = .ok crW ∧
    (get_chief_ray_pkg X0 fldW 550 0).2.chief_ray = none := ⟨rfl, rfl⟩

/-- C4 (amended): `get_chief_ray_pkg` returns the field's cached package
when present at the requested wavelength; with an empty cache it aims and
traces a fresh chief ray; with a cached package at a different wavelength
it recomputes rather than reuses; the wavelength is the only cache key
(the result is entirely independent of the focus argument) — but the
recomputed package is only returned, never stored back on the field. -/
theorem get_chief_ray_pkg_cache_rule (X : Externals) (fld : Field) (wvl : ℚ)
    (foc : ℝ) :
    (∀ cr, fld.chief_ray = some cr → cr.1.wvl = wvl →
      get_chief_ray_pkg X fld wvl foc = (.ok cr, fld)) ∧
    (∀ cr, fld.chief_ray = some cr → cr.1.wvl ≠ wvl →
      get_chief_ray_pkg X fld wvl foc = (trace_chief_ray X fld wvl foc, fld)) ∧
    (fld.chief_ray = none →
      get_chief_ray_pkg X fld wvl foc = (trace_chief_ray X fld wvl foc, fld)) ∧
    (∀ foc2, get_chief_ray_pkg X fld wvl foc = get_chief_ray_pkg X fld wvl foc2) ∧
    ((get_chief_ray_pkg X fld wvl foc).2 = fld) := by
  refine ⟨?_, ?_, ?_, ?_, ?_⟩
  · intro cr hcr hwvl
    simp [get_chief_ray_pkg, hcr, hwvl]
  · intro cr hcr hwvl
    simp [get_chief_ray_pkg, hcr, hwvl]
  · intro hcr
    simp [get_chief_ray_pkg, hcr]
  · intro foc2
    unfold get_chief_ray_pkg
    cases h : fld.chief_ray with
    | none => rfl
    | some cr =>
      by_cases hw : cr.1.wvl ≠ wvl <;> simp [hw]
      exact trace_chief_ray_ignores_foc X fld wvl foc foc2
  · unfold get_chief_ray_pkg
    cases h : fld.chief_ray with
    | none => rfl
    | some cr =>
      by_cases hw : cr.1.wvl ≠ wvl <;> simp [hw]

theorem get_chief_ray_pkg_cache_rule_witness :
    (fldC.chief_ray = some crW) ∧ (crW.1.wvl = 550) ∧
    get_chief_ray_pkg X0 fldC 550 0 = (.ok crW, fldC) :=
  ⟨rfl, rfl, (get_chief_ray_pkg_cache_rule X0 fldC 550 0).1 crW rfl rfl⟩

/-! ### C9: `setup_pupil_coords` does not mutate the field; `trace_with_opd` does -/

/-- `get_chief_ray_pkg` hands the field back unchanged (no assignment in
the source). -/
theorem get_chief_ray_pkg_snd (X : Externals) (fld : Field) (wvl : ℚ)
    (foc : ℝ) : (get_chief_ray_pkg X fld wvl foc).2 = fld := by
  unfold get_chief_ray_pkg
  cases h : fld.chief_ray with
  | none => rfl
  | some cr =>
    by_cases hw : cr.1.wvl ≠ wvl <;> simp [hw]

/-- C9: `setup_pupil_coords` never mutates the `Field` it is given — the
returned field is the input field, for every input — whereas a successful
`trace_with_opd` returns the field with both the chief-ray package and the
reference sphere stored on it (and no other field changed). -/
theorem setup_pupil_coords_pure_trace_with_opd_stores (X : Externals)
    (fld : Field) (wvl : ℚ) (foc : ℝ) (image_pt : Option Vec3) :
    ((setup_pupil_coords X fld wvl foc image_pt).2 = fld) ∧
    (∀ (pupil : ℝ × ℝ) (r : List RaySeg × ℝ × ℚ × ℝ) (fld2 : Field),
      trace_with_opd X pupil fld wvl foc image_pt = .ok (r, fld2) →
      ∃ cr, (get_chief_ray_pkg X fld wvl foc).1 = .ok cr ∧
        fld2 = ⟨fld.x, fld.y, fld.aim_pt, some cr,
          some (X.calculate_reference_sphere fld wvl foc cr
            (image_pt.map (fun p => (p.x, p.y))))⟩) := by
  have hsnd := get_chief_ray_pkg_snd X fld wvl foc
  constructor
  · unfold setup_pupil_coords
    rcases h : get_chief_ray_pkg X fld wvl foc with ⟨res, fld1⟩
    have h1 : fld1 = fld := by rw [h] at hsnd; exact hsnd
    cases res with
    | error e => simp [h1]
    | ok cr => simp [h1]
  · intro pupil r fld2 htr
    unfold trace_with_opd at htr
    rcases h : get_chief_ray_pkg X fld wvl foc with ⟨res, fld1⟩
    have h1 : fld1 = fld := by rw [h] at hsnd; exact hsnd
    rw [h] at htr
    cases res with
    | error e => simp at htr
    | ok cr =>
      simp only at htr
      cases htb : trace_base X pupil fld1 wvl with
      | error e => rw [htb] at htr; simp at htr
      | ok ray_pkg =>
        rw [htb] at htr
        simp only [Except.ok.injEq, Prod.mk.injEq] at htr
        subst h1
        refine ⟨cr, rfl, ?_⟩
        rw [← htr.2]

theorem setup_pupil_coords_pure_trace_with_opd_stores_witness :
    ((setup_pupil_coords X0 fldW 550 0 none).2 = fldW) ∧
    fld2W.chief_ray = some crW ∧ fld2W.ref_sphere = some rsW := by
  refine ⟨(setup_pupil_coords_pure_trace_with_opd_stores X0 fldW 550 0 none).1, ?_⟩
  obtain ⟨cr, hcr, hf⟩ :=
    (setup_pupil_coords_pure_trace_with_opd_stores X0 fldW 550 0 none).2
      (0, 0) (pkgW.ray, 0, 550, 0) fld2W rfl
  have hcrW : cr = crW := by
    have h2 : (get_chief_ray_pkg X0 fldW 550 0).1 = .ok crW := rfl
    rw [h2] at hcr
    exact Except.ok.inj hcr.symm
  rw [hf, hcrW]
  exact ⟨rfl, rfl⟩

/-! ### C5: per-sample failure policy of the batch engines -/

/-- The pupil coordinate of sample `j` of a fan (`start` incremented by
`step` once per iteration). -/
def fanPupil (start step : ℝ × ℝ) (j : ℕ) : ℝ × ℝ :=
  (start.1 + j * step.1, start.2 + j * step.2)

theorem fanPupil_zero (start step : ℝ × ℝ) : fanPupil start step 0 = start := by
  simp [fanPupil]

theorem fanPupil_shift (start step : ℝ × ℝ) (j : ℕ) :
    fanPupil (start.1 + step.1, start.2 + step.2) step j =
      fanPupil start step (j + 1) := by
  simp only [fanPupil, Prod.mk.injEq]
  push_cast
  constructor <;> ring

/-- A failure at sample `k` (after `k` successful samples) aborts the whole
fan loop: the error propagates out unhandled. -/
theorem trace_fan_loop_abort {β : Type}
    (traceO : (ℝ × ℝ) → Except TraceErr RayPkg)
    (filt : Option ((ℝ × ℝ) → RayPkg → β)) (step : ℝ × ℝ) (e : TraceErr) :
    ∀ (k n : ℕ) (start : ℝ × ℝ), k < n →
      (∀ j < k, ∃ pkg, traceO (fanPupil start step j) = .ok pkg) →
      traceO (fanPupil start step k) = .error e →
      trace_fan_loop traceO filt start step n = .error e := by
  intro k
  induction k with
  | zero =>
    intro n start hn _ hfail
    rw [fanPupil_zero] at hfail
    match n, hn with
    | m + 1, _ => simp [trace_fan_loop, hfail]
  | succ k ih =>
    intro n start hn hok hfail
    match n, hn with
    | m + 1, hn =>
      obtain ⟨pkg, h0⟩ := hok 0 (Nat.succ_pos k)
      rw [fanPupil_zero] at h0
      have hrest : trace_fan_loop traceO filt
          (start.1 + step.1, start.2 + step.2) step m = .error e := by
        refine ih m (start.1 + step.1, start.2 + step.2)
          (Nat.lt_of_succ_lt_succ hn) ?_ ?_
        · intro j hj
          rw [fanPupil_shift]
          exact hok (j + 1) (Nat.succ_lt_succ hj)
        · rw [fanPupil_shift]
          exact hfail
      simp [trace_fan_loop, h0, hrest]

/-- An oracle whose trace always fails. -/
def traceFailO : (ℝ × ℝ) → Except TraceErr RayPkg := fun _ => .error errW

/-- C5 counterexample: the claim says no batch engine lets a per-sample
failure abort the batch, the fan engine continuing to the next sample.
`trace_fan` has no per-sample handler: with a failing sample the whole fan
evaluates to the raised error instead of a list of samples. -/
theorem trace_fan_aborts_on_failure :
    trace_fan (β := Unit) traceFailO none (0, 0) (1, 1) 3 = .error errW := rfl

/-- C5 (amended): the boundary-ray engine never aborts (one package per
canonical sample, a failing sample replaced by the error's partial package,
via its own handler rather than `trace_safe`); the grid engine routes each
sample through `trace_safe` and a failing cell follows the absence policy;
but the fan engine has no per-sample handling — the first failing sample
aborts the whole fan. -/
theorem batch_engines_failure_policy {β γ : Type} :
    (∀ (traceO : (ℝ × ℝ) → Except TraceErr RayPkg) (prs : List (ℝ × ℝ))
        (unt : Bool),
      (trace_boundary_rays_at_field traceO prs unt).length = prs.length) ∧
    (∀ (traceO : (ℝ × ℝ) → Except TraceErr RayPkg) (prs : List (ℝ × ℝ))
        (unt : Bool) (i : ℕ) (p : ℝ × ℝ) (e : TraceErr),
      prs[i]? = some p → traceO p = .error e →
      (trace_boundary_rays_at_field traceO prs unt)[i]? = some e.ray_pkg) ∧
    (∀ (traceO : (ℝ × ℝ) → Except TraceErr RayPkg) (of : OutputFilter γ)
        (unt : Bool) (imf : Option ((ℝ × ℝ) → Option (RayResult γ) → Option β))
        (ain : Bool) (p : ℝ × ℝ) (e : TraceErr), traceO p = .error e →
      grid_cell (trace_safe (traceO p) of .drop unt) imf ain p =
        (match imf with
         | some f => if (f p none).isSome || ain then [.filtered (f p none)] else []
         | none => if ain then [.triple p.1 p.2 none] else [])) ∧
    (∀ (traceO : (ℝ × ℝ) → Except TraceErr RayPkg)
        (filt : Option ((ℝ × ℝ) → RayPkg → β)) (start step : ℝ × ℝ)
        (e : TraceErr) (k n : ℕ), k < n →
      (∀ j < k, ∃ pkg, traceO (fanPupil start step j) = .ok pkg) →
      traceO (fanPupil start step k) = .error e →
      trace_fan_loop traceO filt start step n = .error e) := by
  refine ⟨?_, ?_, ?_, ?_⟩
  · intro traceO prs unt
    simp [trace_boundary_rays_at_field]
  · intro traceO prs unt i p e hp htrace
    simp only [trace_boundary_rays_at_field, List.getElem?_map, hp,
      Option.map_some]
    cases unt <;> simp [htrace, RayPkg.toNamedTuples_eq]
  · intro traceO of unt imf ain p e htrace
    rw [htrace]
    cases imf <;> rfl
  · intro traceO filt start step e k n hk hok hfail
    exact trace_fan_loop_abort traceO filt step e k n start hk hok hfail

theorem batch_engines_failure_policy_witness :
    (traceFailO (0, 0) = .error errW) ∧
    (trace_boundary_rays_at_field traceFailO [(0, 0)] false)[0]? = some pkgW ∧
    grid_cell (trace_safe (γ := Unit) (traceFailO (0, 0)) .keepAll .drop false)
      (β := Unit) none true (0, 0) = [.triple 0 0 none] ∧
    trace_fan_loop (β := Unit) traceFailO none (0, 0) (1, 1) 1 = .error errW := by
  refine ⟨by simp [traceFailO], ?_, ?_, ?_⟩
  · exact (batch_engines_failure_policy (β := Unit) (γ := Unit)).2.1
      traceFailO [(0, 0)] false 0 (0, 0) errW rfl rfl
  · exact (batch_engines_failure_policy (β := Unit) (γ := Unit)).2.2.1
      traceFailO .keepAll false none true (0, 0) errW rfl
  · exact (batch_engines_failure_policy (β := Unit) (γ := Unit)).2.2.2
      traceFailO none (0, 0) (1, 1) errW 0 1 Nat.one_pos
      (fun j hj => absurd hj (Nat.not_lt_zero j))
      (by rw [fanPupil_zero]; simp [traceFailO])

/-! ### C8: the per-cell append policy of `trace_grid` -/

/-- Closed form of the inner grid loop: cell `j` samples `y0 + j*stepy`. -/
theorem trace_grid_inner_eq {E : Type} (cell : ℝ × ℝ → List E) (x stepy : ℝ) :
    ∀ (n : ℕ) (y : ℝ), trace_grid_inner cell x stepy n y =
      ((List.range n).map (fun j : ℕ => cell (x, y + (j : ℝ) * stepy))).flatten := by
  intro n
  induction n with
  | zero => intro y; rfl
  | succ m ih =>
    intro y
    calc trace_grid_inner cell x stepy (m + 1) y
        = cell (x, y) ++ trace_grid_inner cell x stepy m (y + stepy) := rfl
      _ = cell (x, y) ++
          ((List.range m).map
            (fun j : ℕ => cell (x, (y + stepy) + (j : ℝ) * stepy))).flatten := by
            rw [ih]
      _ = cell (x, y) ++
          ((List.range m).map
            (fun j : ℕ => cell (x, y + ((j : ℝ) + 1) * stepy))).flatten := by
            congr 1
            apply congrArg
            apply List.map_congr_left
            intro j _
            exact congrArg (fun t => cell (x, t)) (by ring)
      _ = ((List.range (m + 1)).map
            (fun j : ℕ => cell (x, y + (j : ℝ) * stepy))).flatten := by
            rw [List.range_succ_eq_map, List.map_cons, List.flatten_cons,
              List.map_map]
            congr 1
            · exact congrArg (fun t => cell (x, t)) (by push_cast; ring)
            · apply congrArg
              apply List.map_congr_left
              intro j _
              exact congrArg (fun t => cell (x, t)) (by push_cast; ring)

/-- Closed form of the outer grid loop: row `i` starts at `x + i*stepx`
with the y coordinate reset to `y0`. -/
theorem trace_grid_outer_eq {E : Type} (cell : ℝ × ℝ → List E)
    (y0 stepx stepy : ℝ) (num : ℕ) :
    ∀ (m : ℕ) (x : ℝ), trace_grid_outer cell y0 stepx stepy num m x =
      (List.range m).map
        (fun i : ℕ => trace_grid_inner cell (x + (i : ℝ) * stepx) stepy num y0) := by
  intro m
  induction m with
  | zero => intro x; rfl
  | succ k ih =>
    intro x
    calc trace_grid_outer cell y0 stepx stepy num (k + 1) x
        = trace_grid_inner cell x stepy num y0 ::
            trace_grid_outer cell y0 stepx stepy num k (x + stepx) := rfl
      _ = trace_grid_inner cell x stepy num y0 ::
          (List.range k).map
            (fun i : ℕ =>
              trace_grid_inner cell ((x + stepx) + (i : ℝ) * stepx) stepy num y0) := by
            rw [ih]
      _ = (List.range (k + 1)).map
            (fun i : ℕ => trace_grid_inner cell (x + (i : ℝ) * stepx) stepy num y0) := by
            rw [List.range_succ_eq_map, List.map_cons, List.map_map]
            congr 1
            · exact congrArg (fun t => trace_grid_inner cell t stepy num y0)
                (by push_cast; ring)
            · apply List.map_congr_left
              intro i _
              exact congrArg (fun t => trace_grid_inner cell t stepy num y0)
                (by push_cast; ring)

/-- The per-axis grid step `(stop - start)/(num - 1)`. -/
noncomputable def gridStep (s t : ℝ × ℝ) (num : ℕ) : ℝ × ℝ :=
  ((t.1 - s.1) / ((num : ℝ) - 1), (t.2 - s.2) / ((num : ℝ) - 1))

/-- The pupil sample of row `i`, column `j` of the grid. -/
noncomputable def gridPupil (s t : ℝ × ℝ) (num : ℕ) (i j : ℕ) : ℝ × ℝ :=
  (s.1 + (i : ℝ) * (gridStep s t num).1, s.2 + (j : ℝ) * (gridStep s t num).2)

/-- C8: the per-cell policy of `trace_grid`.  Cells with a present
safe-trace result are always appended (the filter output, or the triple
with the result); for an absent result, with a caller filter the filter's
output is appended iff it is non-absent or the append-if-missing flag is
set, and without a filter the placeholder `(px, py, None)` is appended iff
the flag is set.  Moreover every cell of the traced grid (in both output
forms) is exactly this policy applied at its row-major pupil sample. -/
theorem trace_grid_cell_policy {γ β : Type} :
    (∀ (r : RayResult γ) (f : (ℝ × ℝ) → Option (RayResult γ) → Option β)
        (ain : Bool) (p : ℝ × ℝ),
      grid_cell (some r) (some f) ain p = [.filtered (f p (some r))]) ∧
    (∀ (r : RayResult γ) (ain : Bool) (p : ℝ × ℝ),
      grid_cell (β := β) (some r) none ain p = [.triple p.1 p.2 (some r)]) ∧
    (∀ (r : RayResult γ)
        (imf : Option ((ℝ × ℝ) → Option (RayResult γ) → Option β))
        (ain : Bool) (p : ℝ × ℝ),
      grid_cell (some r) imf ain p ≠ []) ∧
    (∀ (f : (ℝ × ℝ) → Option (RayResult γ) → Option β) (ain : Bool)
        (p : ℝ × ℝ),
      grid_cell none (some f) ain p =
        if (f p none).isSome || ain then [.filtered (f p none)] else []) ∧
    (∀ (f : (ℝ × ℝ) → Option (RayResult γ) → Option β) (ain : Bool)
        (p : ℝ × ℝ),
      grid_cell none (some f) ain p ≠ [] ↔
        ((f p none).isSome || ain) = true) ∧
    (∀ (ain : Bool) (p : ℝ × ℝ),
      grid_cell (ρ := RayResult γ) (β := β) none none ain p =
        if ain then [.triple p.1 p.2 none] else []) ∧
    (∀ (ain : Bool) (p : ℝ × ℝ),
      grid_cell (ρ := RayResult γ) (β := β) none none ain p ≠ [] ↔
        ain = true) ∧
    (∀ (traceO : (ℝ × ℝ) → Except TraceErr RayPkg) (of : OutputFilter γ)
        (rf : RayerrFilter) (unt : Bool)
        (imf : Option ((ℝ × ℝ) → Option (RayResult γ) → Option β))
        (s t : ℝ × ℝ) (num : ℕ) (ain : Bool),
      trace_grid traceO of rf unt imf s t num .grid ain =
        .nested ((List.range num).map (fun i : ℕ =>
          ((List.range num).map (fun j : ℕ =>
            grid_cell (trace_safe (traceO (gridPupil s t num i j)) of rf unt)
              imf ain (gridPupil s t num i j))).flatten)) ∧
      trace_grid traceO of rf unt imf s t num .list ain =
        .flat (((List.range num).map (fun i : ℕ =>
          ((List.range num).map (fun j : ℕ =>
            grid_cell (trace_safe (traceO (gridPupil s t num i j)) of rf unt)
              imf ain (gridPupil s t num i j))).flatten)).flatten)) := by
  refine ⟨fun _ _ _ _ => rfl, fun _ _ _ => rfl, ?_, fun _ _ _ => rfl, ?_,
    fun _ _ => rfl, ?_, ?_⟩
  · intro r imf ain p
    cases imf <;> simp [grid_cell]
  · intro f ain p
    constructor
    · intro h
      by_contra hc
      apply h
      simp only [grid_cell]
      rw [if_neg]
      simpa using hc
    · intro h
      simp [grid_cell, h]
  · intro ain p
    cases ain <;> simp [grid_cell]
  · intro traceO of rf unt imf s t num ain
    have hrows : trace_grid_outer
        (fun p => grid_cell (trace_safe (traceO p) of rf unt) imf ain p)
        s.2 (gridStep s t num).1 (gridStep s t num).2 num num s.1 =
        (List.range num).map (fun i : ℕ =>
          ((List.range num).map (fun j : ℕ =>
            grid_cell (trace_safe (traceO (gridPupil s t num i j)) of rf unt)
              imf ain (gridPupil s t num i j))).flatten) := by
      rw [trace_grid_outer_eq]
      apply List.map_congr_left
      intro i _
      rw [trace_grid_inner_eq]
      rfl
    constructor
    · show GridOut.nested (trace_grid_outer
        (fun p => grid_cell (trace_safe (traceO p) of rf unt) imf ain p)
        s.2 (gridStep s t num).1 (gridStep s t num).2 num num s.1) = _
      rw [hrows]
    · show GridOut.flat (trace_grid_outer
        (fun p => grid_cell (trace_safe (traceO p) of rf unt) imf ain p)
        s.2 (gridStep s t num).1 (gridStep s t num).2 num num s.1).flatten = _
      rw [hrows]

theorem trace_grid_cell_policy_witness :
    grid_cell (ρ := RayResult Unit) (β := Unit) none none true (0, 0) =
      [.triple 0 0 none] ∧
    grid_cell (ρ := RayResult Unit) (β := Unit) none none false (0, 0) = [] := by
  have h := (trace_grid_cell_policy (γ := Unit) (β := Unit)).2.2.2.2.2.1
  exact ⟨by rw [h true (0, 0)]; rfl, by rw [h false (0, 0)]; rfl⟩

/-! ### C7: `intersect_2_lines` -/

/-- C7 counterexample: for parallel direction inputs the claim says an
error/undefined condition is signalled rather than a degenerate numeric
value silently returned.  The function performs no check: with `V1 = V2`
the divisor `|V1 x V2|**2` is zero and the division-by-zero junk value is
returned as an ordinary number (NaN in floating point; `0` in the
real-number model). -/
theorem intersect_2_lines_parallel_no_error :
    cross3 ⟨0, 0, 1⟩ ⟨0, 0, 1⟩ = (⟨0, 0, 0⟩ : Vec3) ∧
    intersect_2_lines ⟨0, 0, 0⟩ ⟨0, 0, 1⟩ ⟨1, 0, 0⟩ ⟨0, 0, 1⟩ = 0 := by
  constructor
  · simp [cross3, Vec3.ext_iff]
  · simp [intersect_2_lines, cross3, dot3, sub3]

/-- C7 (amended): `intersect_2_lines` returns
`((P2-P1) x V1).(V1 x V2)/|V1 x V2|**2` for every input (parallel
directions included — no error is signalled, the zero divisor just makes
the quotient degenerate); for two non-parallel lines through a common
point the returned value is the point's axial parameter along the second
line (`P2 + s*V2`), not the documented distance from `P1`. -/
theorem intersect_2_lines_formula_and_common_point (P1 V1 P2 V2 : Vec3)
    (s0 t0 : ℝ)
    (hmeet : add3 P1 (smul3 s0 V1) = add3 P2 (smul3 t0 V2))
    (hnd : dot3 (cross3 V1 V2) (cross3 V1 V2) ≠ 0) :
    intersect_2_lines P1 V1 P2 V2 =
      dot3 (cross3 (sub3 P2 P1) V1) (cross3 V1 V2) /
        dot3 (cross3 V1 V2) (cross3 V1 V2) ∧
    intersect_2_lines P1 V1 P2 V2 = t0 := by
  refine ⟨rfl, ?_⟩
  have hx : P2.x - P1.x = s0 * V1.x - t0 * V2.x := by
    have h := congrArg Vec3.x hmeet
    simp only [add3, smul3] at h
    linarith
  have hy : P2.y - P1.y = s0 * V1.y - t0 * V2.y := by
    have h := congrArg Vec3.y hmeet
    simp only [add3, smul3] at h
    linarith
  have hz : P2.z - P1.z = s0 * V1.z - t0 * V2.z := by
    have h := congrArg Vec3.z hmeet
    simp only [add3, smul3] at h
    linarith
  have hnum : dot3 (cross3 (sub3 P2 P1) V1) (cross3 V1 V2) =
      t0 * dot3 (cross3 V1 V2) (cross3 V1 V2) := by
    simp only [dot3, cross3, sub3]
    rw [hx, hy, hz]
    ring
  show dot3 (cross3 (sub3 P2 P1) V1) (cross3 V1 V2) /
      dot3 (cross3 V1 V2) (cross3 V1 V2) = t0
  rw [hnum]
  exact mul_div_cancel_right₀ t0 hnd

theorem intersect_2_lines_formula_and_common_point_witness :
    (add3 ⟨0, 0, 0⟩ (smul3 0 ⟨1, 0, 0⟩) =
      add3 ⟨0, 1, 0⟩ (smul3 1 ⟨0, -1, 0⟩)) ∧
    (dot3 (cross3 ⟨1, 0, 0⟩ ⟨0, -1, 0⟩) (cross3 ⟨1, 0, 0⟩ ⟨0, -1, 0⟩) ≠ 0) ∧
    intersect_2_lines ⟨0, 0, 0⟩ ⟨1, 0, 0⟩ ⟨0, 1, 0⟩ ⟨0, -1, 0⟩ = 1 := by
  have hmeet : add3 (⟨0, 0, 0⟩ : Vec3) (smul3 0 ⟨1, 0, 0⟩) =
      add3 ⟨0, 1, 0⟩ (smul3 1 ⟨0, -1, 0⟩) := by
    simp [add3, smul3, Vec3.ext_iff]
  have hnd : dot3 (cross3 (⟨1, 0, 0⟩ : Vec3) ⟨0, -1, 0⟩)
      (cross3 ⟨1, 0, 0⟩ ⟨0, -1, 0⟩) ≠ 0 := by
    simp [cross3, dot3]
  exact ⟨hmeet, hnd,
    (intersect_2_lines_formula_and_common_point _ _ _ _ 0 1 hmeet hnd).2⟩

/-! ### C10: the starting direction handed to the trace primitive -/

/-- Positivity of the squared length of a nonzero vector. -/
theorem dot3_self_pos {v : Vec3} (h : v ≠ ⟨0, 0, 0⟩) : 0 < dot3 v v := by
  have h0 : (0 : ℝ) ≤ dot3 v v := by
    simp only [dot3]
    nlinarith [mul_self_nonneg v.x, mul_self_nonneg v.y, mul_self_nonneg v.z]
  rcases lt_or_eq_of_le h0 with hlt | heq
  · exact hlt
  · exfalso
    apply h
    simp only [dot3] at heq
    have hx : v.x = 0 := by nlinarith [sq_nonneg v.x, sq_nonneg v.y, sq_nonneg v.z]
    have hy : v.y = 0 := by nlinarith [sq_nonneg v.x, sq_nonneg v.y, sq_nonneg v.z]
    have hz : v.z = 0 := by nlinarith [sq_nonneg v.x, sq_nonneg v.y, sq_nonneg v.z]
    rw [Vec3.ext_iff]
    exact ⟨hx, hy, hz⟩

/-- The normalised vector has squared length 1. -/
theorem dot3_normalize3 {v : Vec3} (h : v ≠ ⟨0, 0, 0⟩) :
    dot3 (normalize3 v) (normalize3 v) = 1 := by
  have hq := dot3_self_pos h
  have hs : Real.sqrt (dot3 v v) ^ 2 = dot3 v v := Real.sq_sqrt hq.le
  have hsne : Real.sqrt (dot3 v v) ≠ 0 :=
    ne_of_gt (Real.sqrt_pos.mpr hq)
  have hexp : dot3 (normalize3 v) (normalize3 v) =
      dot3 v v / Real.sqrt (dot3 v v) ^ 2 := by
    simp only [normalize3, norm3, smul3, dot3]
    field_simp
    ring
  rw [hexp, hs]
  exact div_self (ne_of_gt hq)

/-- C10: whenever `trace_base` reaches the underlying trace primitive, the
starting direction it hands over is a unit vector whose z component times
the first gap's propagation sign is non-negative; the normalised aim
direction is negated exactly when that product would be negative. -/
theorem trace_base_dir0_unit_and_sign (X : Externals) (pupil : ℝ × ℝ)
    (fld : Field) (av : Bool)
    (hne : trace_base_pt1 X pupil fld av ≠ X.obj_coords fld)
    (hz : X.z_dir0 = 1 ∨ X.z_dir0 = -1) :
    dot3 (trace_base_dir0 X pupil fld av) (trace_base_dir0 X pupil fld av) = 1 ∧
    norm3 (trace_base_dir0 X pupil fld av) = 1 ∧
    (trace_base_dir0 X pupil fld av).z * X.z_dir0 ≥ 0 ∧
    ((normalize3 (sub3 (trace_base_pt1 X pupil fld av) (X.obj_coords fld))).z *
        X.z_dir0 < 0 →
      trace_base_dir0 X pupil fld av =
        neg3 (normalize3 (sub3 (trace_base_pt1 X pupil fld av)
          (X.obj_coords fld)))) := by
  set pt1 := trace_base_pt1 X pupil fld av with hpt1
  set pt0 := X.obj_coords fld with hpt0
  have hvne : sub3 pt1 pt0 ≠ ⟨0, 0, 0⟩ := by
    intro hc
    apply hne
    rw [Vec3.ext_iff] at hc ⊢
    simp only [sub3] at hc
    obtain ⟨h1, h2, h3⟩ := hc
    exact ⟨by linarith, by linarith, by linarith⟩
  have hunit := dot3_normalize3 hvne
  have hd : trace_base_dir0 X pupil fld av =
      (if (normalize3 (sub3 pt1 pt0)).z * X.z_dir0 < 0 then
        neg3 (normalize3 (sub3 pt1 pt0)) else normalize3 (sub3 pt1 pt0)) := rfl
  have hdot : dot3 (trace_base_dir0 X pupil fld av)
      (trace_base_dir0 X pupil fld av) = 1 := by
    rw [hd]
    by_cases hneg : (normalize3 (sub3 pt1 pt0)).z * X.z_dir0 < 0
    · rw [if_pos hneg]
      simp only [neg3, dot3] at hunit ⊢
      linarith
    · rw [if_neg hneg]
      exact hunit
  refine ⟨hdot, ?_, ?_, ?_⟩
  · rw [norm3, hdot]
    exact Real.sqrt_one
  · rw [hd]
    by_cases hneg : (normalize3 (sub3 pt1 pt0)).z * X.z_dir0 < 0
    · rw [if_pos hneg]
      simp only [neg3]
      nlinarith
    · rw [if_neg hneg]
      linarith [not_lt.mp hneg]
  · intro hneg
    rw [hd, if_pos hneg]

theorem trace_base_dir0_unit_and_sign_witness :
    (trace_base_pt1 X0 (0, 0) fldW true ≠ X0.obj_coords fldW) ∧
    (X0.z_dir0 = 1 ∨ X0.z_dir0 = -1) ∧
    norm3 (trace_base_dir0 X0 (0, 0) fldW true) = 1 := by
  have hne : trace_base_pt1 X0 (0, 0) fldW true ≠ X0.obj_coords fldW := by
    intro hc
    have h := congrArg Vec3.z hc
    simp [trace_base_pt1, X0, fldW] at h
  have hz : X0.z_dir0 = 1 ∨ X0.z_dir0 = -1 := Or.inl rfl
  exact ⟨hne, hz,
    (trace_base_dir0_unit_and_sign X0 (0, 0) fldW true hne hz).2.1⟩

/-! ### C6: the Coddington recurrence -/

/-- At exactly normal incidence the whole incidence-angle chain collapses:
`sinI' = 0`, `sinI = 0`, `cosI = 1`. -/
theorem cod_cosI_of_normal_incidence (before_rind after_rind : ℝ)
    (after_dir normal : Vec3)
    (hc : cod_cosI_prime after_dir normal = 1) :
    cod_cosI before_rind after_rind after_dir normal = 1 := by
  have hsinP : cod_sinI_prime after_dir normal = 0 := by
    rw [cod_sinI_prime, hc]
    norm_num
  have hsin : cod_sinI before_rind after_rind after_dir normal = 0 := by
    rw [cod_sinI, hsinP]
    simp
  rw [cod_cosI, hsin]
  norm_num

/-- C6: in the Coddington recurrence, the first interface initialises both
running vergences to the negated after-distance; at every later interface
the oblique power is the interface's paraxial power scaled by
`(n'cosI' - n cosI)/(n' - n)` when the power is nonzero and `0` otherwise,
and the sagittal update is `s' = n'/(n/s + obliquePower)` followed by
`s - after_dst`; at normal incidence (`cosI' = 1`) the oblique power is
the paraxial power unmodified and the step satisfies the textbook
vergence transfer `n'/s' = n/s + power`. -/
theorem coddington_step_spec (st : CodState) (e : CodEntry) :
    (st.before_dir = none →
      (codStep st e).s_before = -e.seg.dst ∧
      (codStep st e).t_before = -e.seg.dst) ∧
    (∀ d : Vec3, st.before_dir = some d →
      (cod_obl_power e.power st.before_rind (e.after_rind.getD st.before_rind)
          e.seg.d e.seg.nrml =
        (if e.power = 0 then 0 else
          e.power * ((e.after_rind.getD st.before_rind *
              cod_cosI_prime e.seg.d e.seg.nrml -
            st.before_rind * cod_cosI st.before_rind
              (e.after_rind.getD st.before_rind) e.seg.d e.seg.nrml) /
            (e.after_rind.getD st.before_rind - st.before_rind)))) ∧
      (codStep st e).s_prime =
        e.after_rind.getD st.before_rind /
          (st.before_rind / st.s_before +
            cod_obl_power e.power st.before_rind
              (e.after_rind.getD st.before_rind) e.seg.d e.seg.nrml) ∧
      (codStep st e).s_before = (codStep st e).s_prime - e.seg.dst) ∧
    (∀ d : Vec3, st.before_dir = some d →
      cod_cosI_prime e.seg.d e.seg.nrml = 1 →
      e.after_rind.getD st.before_rind ≠ st.before_rind →
      e.after_rind.getD st.before_rind ≠ 0 →
      e.power ≠ 0 →
      st.before_rind / st.s_before + e.power ≠ 0 →
      cod_obl_power e.power st.before_rind (e.after_rind.getD st.before_rind)
          e.seg.d e.seg.nrml = e.power ∧
      e.after_rind.getD st.before_rind / (codStep st e).s_prime =
        st.before_rind / st.s_before + e.power) := by
  refine ⟨?_, ?_, ?_⟩
  · intro hdir
    constructor <;> simp [codStep, hdir]
  · intro d hdir
    refine ⟨rfl, ?_, ?_⟩ <;> simp [codStep, hdir]
  · intro d hdir hc hne hnP hpow hden
    have hcosI : cod_cosI st.before_rind (e.after_rind.getD st.before_rind)
        e.seg.d e.seg.nrml = 1 :=
      cod_cosI_of_normal_incidence _ _ _ _ hc
    have hobl : cod_obl_power e.power st.before_rind
        (e.after_rind.getD st.before_rind) e.seg.d e.seg.nrml = e.power := by
      rw [cod_obl_power, if_neg hpow, hc, hcosI]
      rw [mul_one, mul_one, div_self (sub_ne_zero.mpr hne), mul_one]
    refine ⟨hobl, ?_⟩
    have hsp : (codStep st e).s_prime =
        e.after_rind.getD st.before_rind /
          (st.before_rind / st.s_before + e.power) := by
      simp only [codStep, hdir]
      rw [hobl]
    rw [hsp]
    field_simp

noncomputable def codStW : CodState :=
  { before_rind := 1, before_dir := some ⟨0, 0, 1⟩, s_before := 2,
    t_before := 2, s_prime := 0, t_prime := 0, pt := ⟨0, 0, 0⟩,
    after_dir := ⟨0, 0, 1⟩ }

noncomputable def codEnW : CodEntry :=
  { seg := ⟨⟨0, 0, 0⟩, ⟨0, 0, 1⟩, 1, ⟨0, 0, 1⟩⟩, power := 1 / 2,
    after_rind := some (3 / 2) }

theorem coddington_step_spec_witness :
    (cod_cosI_prime codEnW.seg.d codEnW.seg.nrml = 1) ∧
    ((codStep (codInit 1) codEnW).s_before = -codEnW.seg.dst) ∧
    codEnW.after_rind.getD codStW.before_rind / (codStep codStW codEnW).s_prime =
      codStW.before_rind / codStW.s_before + codEnW.power := by
  have hc : cod_cosI_prime codEnW.seg.d codEnW.seg.nrml = 1 := by
    simp [cod_cosI_prime, codEnW, dot3, norm3]
  refine ⟨hc, ?_, ?_⟩
  · exact ((coddington_step_spec (codInit 1) codEnW).1 rfl).1
  · refine ((coddington_step_spec codStW codEnW).2.2 ⟨0, 0, 1⟩ rfl hc
      ?_ ?_ ?_ ?_).2
    · norm_num [codEnW, codStW]
    · norm_num [codEnW, codStW]
    · norm_num [codEnW]
    · norm_num [codStW, codEnW]

end RayOptics
